import Mathlib

/-!
Shallow embedding of the core of the `asphalt-influxdb` client library
(`asphalt/influxdb/client.py` and `asphalt/influxdb/query.py`), together with
theorems settling the specification claims about it:

* the line-protocol encoder (`DataPoint.__init__` / `DataPoint.as_line`),
* the query-result decoder (`InfluxDBClient.raw_query` and its inner
  `get_series`),
* the multi-host request dispatcher (`InfluxDBClient._request`),
* the immutable query builder (`SelectQuery`),
* typed result rows (`Series.__iter__` / `KeyedTuple.__init__`).

Python strings are Lean `String`s, Python lists are Lean `List`s, ordered
dicts are association lists, exceptions are `Except String`, and `None` is
`Option.none`.  Values whose only role is to be interpolated via `str()` are
carried as the string `str()` renders them to.
-/

namespace AsphaltInfluxDB

/-- Python's `sep.join(items)`: items interleaved with the separator, empty
string for an empty list. -/
def pyJoin (sep : String) : List String → String
  | [] => ""
  | [x] => x
  | x :: y :: rest => x ++ sep ++ pyJoin sep (y :: rest)

/-- Escape of one character inside a quoted InfluxDB string: backslashes and
double quotes are prefixed with a backslash, everything else passes through. -/
def escapeChar (c : Char) : String :=
  if c = '\\' then "\\\\"
  else if c = '"' then "\\\""
  else String.singleton c

/-- Modelled from the spec: `quote_string` lives in
`asphalt/influxdb/utils.py`, which is not part of the sources at hand; per
spec §4.1 string values are "quoted with internal quote/backslash escaping",
so the value is wrapped in double quotes with internal backslashes and double
quotes backslash-escaped. -/
def quote_string (s : String) : String :=
  "\"" ++ String.join (s.data.map escapeChar) ++ "\""

/-- A field value of a data point, mirroring
`Union[int, float, Decimal, bool, str]` in `DataPoint.__init__`.  Python's
`isinstance(value, (float, Decimal, bool))` test fires before the `int` test,
so booleans take the `str(value)` branch; floats and decimals are carried as
the string `str(value)` renders them to (their decimal notation). -/
inductive FieldValue where
  | boolVal (b : Bool)
  | floatVal (repr : String)
  | intVal (i : Int)
  | strVal (s : String)
  deriving DecidableEq, Repr

/-- The body of the field-rendering loop in `DataPoint.as_line`: floats,
decimals and booleans pass through `str()` unquoted, integers get a trailing
`i` marker, and all other (string) values go through `quote_string`. -/
def renderFieldValue : FieldValue → String
  | .boolVal b => if b then "True" else "False"
  | .floatVal r => r
  | .intVal i => toString i ++ "i"
  | .strVal s => quote_string s

/-- A data point, mirroring the `DataPoint` slots.  Tag values are always
interpolated with `str()`, so they are carried as strings; a `datetime`
timestamp is converted by `convert_to_timestamp` (in `utils.py`) into integer
ticks before being appended, so the timestamp is carried as the resulting
integer (or `none` when absent). -/
structure DataPoint where
  measurement : String
  tags : List (String × String)
  fields : List (String × FieldValue)
  timestamp : Option Int
  deriving DecidableEq, Repr

/-- Models `DataPoint.__init__`: the attributes are stored and then
`ValueError('at least one field is required')` is raised when the field map
is empty. -/
def DataPoint.init (measurement : String) (tags : List (String × String))
    (fields : List (String × FieldValue)) (timestamp : Option Int) :
    Except String DataPoint :=
  if fields.isEmpty then
    .error "at least one field is required"
  else
    .ok ⟨measurement, tags, fields, timestamp⟩

/-- Models `DataPoint.as_line`: measurement, then `,tag=value` pairs when tags
are present, a space, the comma-joined `field=value` pairs (typed via
`renderFieldValue`), and finally a space and the timestamp digits when a
timestamp is present.  The `precision` argument of the source only affects
the `datetime`-to-ticks conversion, which happens before our integer
timestamp representation. -/
def DataPoint.as_line (p : DataPoint) : String :=
  let line := p.measurement
  let line :=
    if p.tags.isEmpty then line
    else line ++ "," ++ pyJoin "," (p.tags.map (fun kv => kv.1 ++ "=" ++ kv.2))
  let line := line ++ " "
  let line := line ++
    pyJoin "," (p.fields.map (fun kv => kv.1 ++ "=" ++ renderFieldValue kv.2))
  match p.timestamp with
  | none => line
  | some ts => line ++ " " ++ toString ts

/-- A raw JSON scalar appearing in a result row.  Numbers and booleans only
ever pass through untouched, so numbers are carried as their JSON rendering.
`time s` stands for the `datetime` object obtained by parsing the string `s`
with `dateutil.parser.parse` (an external library, here kept abstract as a
tag on the original string). -/
inductive JSONVal where
  | str (s : String)
  | num (s : String)
  | boolV (b : Bool)
  | null
  | time (s : String)
  deriving DecidableEq, Repr

/-- Models `dateutil.parser.parse` as used in `KeyedTuple.__init__`: a string
parses to the corresponding absolute-time value; any non-string argument
makes `dateutil` raise `TypeError('Parser must be a string or character
stream')`. -/
def dateutil_parse : JSONVal → Except String JSONVal
  | .str s => .ok (.time s)
  | _ => .error "Parser must be a string or character stream"

/-- Models a `series` object of a query response and the `Series` class:
a name, ordered column names, and raw value rows. -/
structure Series where
  name : String
  columns : List String
  values : List (List JSONVal)
  deriving DecidableEq, Repr

/-- The column-name-to-index dictionary built in `Series.__iter__` via
`{key: index for index, key in enumerate(self.columns)}`, looked up at
`'time'` (`columns.get('time')` in `KeyedTuple.__init__`).  A Python dict
comprehension keeps the last index for a duplicated name, hence the fold. -/
def timeIndex (columns : List String) : Option Nat :=
  columns.enum.foldl (fun acc kv => if kv.2 = "time" then some kv.1 else acc) none

/-- Models `KeyedTuple.__init__` on a raw row: when a `time` column exists,
`row[time_index] = parse(row[time_index])` replaces that cell in place (the
row list is shared with `Series._values`); other cells are untouched.  A
`time` index beyond the row's length is Python's `IndexError`. -/
def keyedTupleInit (columns : List String) (row : List JSONVal) :
    Except String (List JSONVal) :=
  match timeIndex columns with
  | none => .ok row
  | some i =>
    match row.get? i with
    | none => .error "IndexError: list assignment index out of range"
    | some v => (dateutil_parse v).map (fun t => row.set i t)

/-- Sequencing of fallible row construction down a list, as a generator does:
rows are produced in order and the first failure aborts the iteration. -/
def exceptMapRows (f : List JSONVal → Except String (List JSONVal)) :
    List (List JSONVal) → Except String (List (List JSONVal))
  | [] => .ok []
  | row :: rest =>
    match f row with
    | .error e => .error e
    | .ok r =>
      match exceptMapRows f rest with
      | .error e => .error e
      | .ok rs => .ok (r :: rs)

/-- Models one full run of `Series.__iter__`: each raw row is turned into a
`KeyedTuple` over the shared column mapping.  The returned rows are the
`KeyedTuple` contents; because each `KeyedTuple` aliases the stored row,
they are also what `Series._values` holds after the run. -/
def seriesIterOnce (s : Series) : Except String (List (List JSONVal)) :=
  exceptMapRows (keyedTupleInit s.columns) s.values

/-- Two consecutive full iterations of the same `Series` object: the second
run starts from the storage the first run left behind. -/
def seriesIterTwice (s : Series) : Except String (List (List JSONVal)) :=
  match seriesIterOnce s with
  | .error e => .error e
  | .ok rows => seriesIterOnce { s with values := rows }

/-- One entry of the `results` array of a query response body: it may carry
an `error` member, a `series` member, both, or neither. -/
structure StatementResult where
  error : Option String
  series : Option (List Series)
  deriving DecidableEq, Repr

/-- The decoded value of one statement result, as produced by the inner
`get_series` of `InfluxDBClient.raw_query`: an `InfluxDBError` value, a
single unwrapped series, a list of series, or `None`. -/
inductive DecodedResult where
  | errVal (msg : String)
  | single (s : Series)
  | multi (ss : List Series)
  | noResult
  deriving DecidableEq, Repr

/-- Models `get_series` in `InfluxDBClient.raw_query`: the `error` key wins,
then a present `series` list is unwrapped exactly when its length is 1, and
with neither key the result is `None`. -/
def get_series (result : StatementResult) : DecodedResult :=
  match result.error with
  | some msg => .errVal msg
  | none =>
    match result.series with
    | some items =>
      match items with
      | [s] => .single s
      | _ => .multi items
    | none => .noResult

/-- The outcome of `raw_query` on an HTTP 200 body: either an
`InfluxDBError` is raised, or a single decoded result is returned unwrapped,
or the list of per-statement decoded results is returned. -/
inductive RawQueryOutcome where
  | raised (msg : String)
  | value (v : DecodedResult)
  | values (vs : List DecodedResult)
  deriving DecidableEq, Repr

/-- Models the status-200 branch of `InfluxDBClient.raw_query`: every entry
of `results` goes through `get_series`; a singleton list is unwrapped, with
a lone error value raised instead of returned; any other length is returned
as the list itself. -/
def raw_query_results (results : List StatementResult) : RawQueryOutcome :=
  let series_list := results.map get_series
  match series_list with
  | [r] =>
    match r with
    | .errVal msg => .raised msg
    | v => .value v
  | rs => .values rs

/-- The clause slots of `SelectQuery` (the `_client` and `_query_params`
slots play no part in clause composition or rendering and are omitted).
Python's `where` is a Lean keyword, hence the field name `where_`. -/
structure SelectQuery where
  select : String
  from_ : String
  into : String
  where_ : String
  group_by : String
  order_by : String
  deriving DecidableEq, Repr

/-- Models `SelectQuery.select`: the new expressions are comma-joined and, if
both the result and the existing SELECT clause are non-empty, appended to the
existing clause with a comma; called with no expressions it resets the
clause. -/
def SelectQuery.selectAdd (q : SelectQuery) (expressions : List String) : SelectQuery :=
  let expression := pyJoin "," expressions
  let expression :=
    if expression ≠ "" ∧ q.select ≠ "" then q.select ++ "," ++ expression
    else expression
  { q with select := expression }

/-- Models `SelectQuery.into`: the INTO measurement name is stored quoted via
`quote_string`. -/
def SelectQuery.intoSet (q : SelectQuery) (into : String) : SelectQuery :=
  { q with into := quote_string into }

/-- Models `SelectQuery.where` called with positional raw expressions (the
keyword-equality variant appends `key = value` fragments to the same list
before the join): the expressions are joined with `' AND '` and, if both the
result and the existing WHERE clause are non-empty, appended to the existing
clause with `' AND '`; called with no expressions it resets the clause. -/
def SelectQuery.whereAdd (q : SelectQuery) (expressions : List String) : SelectQuery :=
  let expression := pyJoin " AND " expressions
  let expression :=
    if expression ≠ "" ∧ q.where_ ≠ "" then q.where_ ++ " AND " ++ expression
    else expression
  { q with where_ := expression }

/-- Models `SelectQuery.group_by`: comma-join, augment or reset, exactly as
`select`. -/
def SelectQuery.groupByAdd (q : SelectQuery) (expressions : List String) : SelectQuery :=
  let expression := pyJoin "," expressions
  let expression :=
    if expression ≠ "" ∧ q.group_by ≠ "" then q.group_by ++ "," ++ expression
    else expression
  { q with group_by := expression }

/-- Models `SelectQuery.order_by`: comma-join, augment or reset, exactly as
`select`. -/
def SelectQuery.orderByAdd (q : SelectQuery) (expressions : List String) : SelectQuery :=
  let expression := pyJoin "," expressions
  let expression :=
    if expression ≠ "" ∧ q.order_by ≠ "" then q.order_by ++ "," ++ expression
    else expression
  { q with order_by := expression }

/-- Models `SelectQuery.__str__`: `SELECT`, then `INTO` when set, then
`FROM`, then `WHERE`, `GROUP BY` and `ORDER BY` when set, all by plain
string concatenation of the stored clause texts. -/
def SelectQuery.render (q : SelectQuery) : String :=
  let text := "SELECT " ++ q.select
  let text := if q.into ≠ "" then text ++ " INTO " ++ q.into else text
  let text := text ++ " FROM " ++ q.from_
  let text := if q.where_ ≠ "" then text ++ " WHERE " ++ q.where_ else text
  let text := if q.group_by ≠ "" then text ++ " GROUP BY " ++ q.group_by else text
  if q.order_by ≠ "" then text ++ " ORDER BY " ++ q.order_by else text

/-- What happens when one host of the list is tried by
`InfluxDBClient._request`: the `await session.request(...)` call either
raises `ClientConnectionError`, raises some other exception, or returns a
response (carried abstractly as a number, e.g. its HTTP status). -/
inductive HostOutcome where
  | connError
  | otherError
  | response (r : Nat)
  deriving DecidableEq, Repr

/-- The result of `InfluxDBClient._request`: a response together with the
host list as left after promotion, the fatal
`InfluxDBError('unexpected error when connecting to ...')` naming the host
it was raised for, or `InfluxDBError('no servers could be reached')`. -/
inductive RequestResult where
  | ok (r : Nat) (newHosts : List String)
  | fatalError (host : String)
  | noReachableHost
  deriving DecidableEq, Repr

/-- The promotion `self.base_urls.insert(0, self.base_urls.pop(i))`: the
element at index `i` is removed and re-inserted at the front. -/
def promote (l : List String) (i : Nat) : List String :=
  match l.get? i with
  | some x => x :: l.eraseIdx i
  | none => l

/-- The host loop of `InfluxDBClient._request`, iterating over
`enumerate(self.base_urls)`: `all` is the full host list, `i` the index of
the first host of `rest` within it.  A connection error logs and moves on, any
other error aborts with the fatal `InfluxDBError`, and the first response is
returned after promoting the responding host to the front (only when more
than one host is configured); an exhausted loop raises
`InfluxDBError('no servers could be reached')`. -/
def request_aux (outcome : String → HostOutcome) (all : List String) :
    Nat → List String → RequestResult
  | _, [] => .noReachableHost
  | i, host :: rest =>
    match outcome host with
    | .connError => request_aux outcome all (i + 1) rest
    | .otherError => .fatalError host
    | .response r => .ok r (if all.length > 1 then promote all i else all)

/-- Models one call of `InfluxDBClient._request` over the host list `hosts`,
where `outcome` says how each host behaves for this call. -/
def request (outcome : String → HostOutcome) (hosts : List String) : RequestResult :=
  request_aux outcome hosts 0 hosts

/-- The host list a client holds after one `_request` call: reordered on
success, untouched when the call raised. -/
def hostsAfter (outcome : String → HostOutcome) (hosts : List String) : List String :=
  match request outcome hosts with
  | .ok _ newHosts => newHosts
  | _ => hosts

/-- The host list after a whole sequence of `_request` calls. -/
def hostsAfterSeq (outcomes : List (String → HostOutcome)) (hosts : List String) :
    List String :=
  outcomes.foldl (fun hs outcome => hostsAfter outcome hs) hosts

/-- The query of `tests/test_query.py::TestQuery::test_str`, expressed through
the `str`-typed `SelectQuery.__init__` of the source: the test hands the raw
measurement names `['m1', 'm2']` to `from_`, which the source stores
verbatim, so the closest constructible input is the comma-joined raw text. -/
def c8Builder : SelectQuery :=
  ((((SelectQuery.mk "key1,key2" "m1,m2" "" "" "" "").intoSet "m3").whereAdd
      ["m1 > 6.54"]).groupByAdd ["m1", "m2"]).orderByAdd ["m2 DESC", "m1 ASC"]

/-- A one-row series with a `time` column, as returned for a
`SELECT * FROM m1` query. -/
def c9Series : Series :=
  ⟨"m1", ["time", "f1"], [[.str "2016-12-03T19:26:51Z", .num "4.32"]]⟩

/-! Theorems.  Each claim of the specification is settled by one theorem
below; the lemmas in between are shared stepping stones. -/

/-- Auxiliary: a `results` array with at least two entries is returned as the
list of its decoded statement results. -/
theorem raw_query_results_two_or_more (r1 r2 : StatementResult) (rest : List StatementResult) :
    raw_query_results (r1 :: r2 :: rest) = .values ((r1 :: r2 :: rest).map get_series) := by
  simp [raw_query_results]

/-- C1: encoding a data point to a line tags each field value by type —
booleans and floating-point/decimal values are rendered unquoted, integers
with a trailing `i` marker, strings quoted with internal quote/backslash
escaping — and the spec's example point encodes to exactly the given line,
with and without a timestamp. -/
theorem as_line_field_typing :
    (∀ m k b, DataPoint.as_line ⟨m, [], [(k, .boolVal b)], none⟩
        = m ++ " " ++ k ++ "=" ++ (if b then "True" else "False"))
  ∧ (∀ m k r, DataPoint.as_line ⟨m, [], [(k, .floatVal r)], none⟩
        = m ++ " " ++ k ++ "=" ++ r)
  ∧ (∀ m k i, DataPoint.as_line ⟨m, [], [(k, .intVal i)], none⟩
        = m ++ " " ++ k ++ "=" ++ toString i ++ "i")
  ∧ (∀ m k s, DataPoint.as_line ⟨m, [], [(k, .strVal s)], none⟩
        = m ++ " " ++ k ++ "=" ++ quote_string s)
  ∧ DataPoint.as_line ⟨"m1", [("tag1", "abc"), ("tag2", "6")],
        [("field1", .floatVal "5.5"), ("field2", .intVal 7), ("field3", .strVal "x")],
        some 1480793211053212⟩
      = "m1,tag1=abc,tag2=6 field1=5.5,field2=7i,field3=\"x\" 1480793211053212"
  ∧ DataPoint.as_line ⟨"m1", [("tag1", "abc"), ("tag2", "6")],
        [("field1", .floatVal "5.5"), ("field2", .intVal 7), ("field3", .strVal "x")],
        none⟩
      = "m1,tag1=abc,tag2=6 field1=5.5,field2=7i,field3=\"x\"" := by
  refine ⟨?_, ?_, ?_, ?_, by decide, by decide⟩ <;>
    intros <;> simp [DataPoint.as_line, pyJoin, renderFieldValue, String.append_assoc]

/-- C6: constructing a `DataPoint` with an empty field map always fails with
the validation error, at construction time, while construction with at least
one field always succeeds. -/
theorem dataPoint_init_requires_field :
    (∀ m tags ts, DataPoint.init m tags [] ts = .error "at least one field is required")
  ∧ (∀ m tags f fs ts, DataPoint.init m tags (f :: fs) ts = .ok ⟨m, tags, f :: fs, ts⟩) := by
  constructor <;> intros <;> simp [DataPoint.init]

/-- C2: the decoder applies the two-level flattening rule — within a
statement, zero series decode to the empty result, one series is unwrapped,
many series stay a list; at the outer level a lone statement result is
returned unwrapped and two or more are returned as a list. -/
theorem decode_flattening :
    (get_series ⟨none, none⟩ = .noResult)
  ∧ (get_series ⟨none, some []⟩ = .multi [])
  ∧ (∀ s, get_series ⟨none, some [s]⟩ = .single s)
  ∧ (∀ s1 s2 rest, get_series ⟨none, some (s1 :: s2 :: rest)⟩ = .multi (s1 :: s2 :: rest))
  ∧ (∀ r : StatementResult, r.error = none → raw_query_results [r] = .value (get_series r))
  ∧ (∀ r1 r2 rest, raw_query_results (r1 :: r2 :: rest)
        = .values ((r1 :: r2 :: rest).map get_series)) := by
  refine ⟨rfl, rfl, fun s => rfl, fun s1 s2 rest => rfl, ?_, ?_⟩
  · rintro ⟨e, ser⟩ h
    subst h
    rcases ser with _ | ⟨_ | ⟨s, _ | ⟨s2, rest⟩⟩⟩ <;> rfl
  · intro r1 r2 rest
    simp [raw_query_results]

/-- Witness for C2 at the concrete empty single-statement payload. -/
theorem decode_flattening_witness :
    raw_query_results [⟨none, none⟩] = .value DecodedResult.noResult :=
  decode_flattening.2.2.2.2.1 ⟨none, none⟩ rfl

/-- C5: a per-statement error that is the sole statement result is raised as
the call's failure; inside a longer result list it stays in place as an error
value at its position and is not raised. -/
theorem inline_error_policy :
    (∀ msg ser, raw_query_results [⟨some msg, ser⟩] = .raised msg)
  ∧ (∀ pre post msg ser, pre ++ post ≠ ([] : List StatementResult) →
      raw_query_results (pre ++ ⟨some msg, ser⟩ :: post)
        = .values (pre.map get_series ++ .errVal msg :: post.map get_series)) := by
  constructor
  · intro msg ser; rfl
  · intro pre post msg ser h
    rcases pre with _ | ⟨a, as⟩
    · rcases post with _ | ⟨p, ps⟩
      · simp at h
      · rw [List.nil_append, raw_query_results_two_or_more]
        simp [get_series]
    · obtain ⟨y, ys, hys⟩ :
          ∃ y ys, as ++ (⟨some msg, ser⟩ : StatementResult) :: post = y :: ys := by
        rcases as with _ | ⟨b, bs⟩
        · exact ⟨_, _, rfl⟩
        · exact ⟨_, _, rfl⟩
      calc raw_query_results ((a :: as) ++ ⟨some msg, ser⟩ :: post)
          = raw_query_results (a :: y :: ys) := by rw [List.cons_append, hys]
        _ = .values ((a :: y :: ys).map get_series) := raw_query_results_two_or_more a y ys
        _ = .values (((a :: as) ++ ⟨some msg, ser⟩ :: post).map get_series) := by
              rw [List.cons_append, hys]
        _ = .values ((a :: as).map get_series ++ .errVal msg :: post.map get_series) := by
              simp [List.map_append, get_series]

/-- Witness for C5: an error result followed by an empty result stays inline. -/
theorem inline_error_policy_witness :
    raw_query_results ([] ++ (⟨some "boom", none⟩ : StatementResult) :: [⟨none, none⟩])
      = .values (List.map get_series [] ++ .errVal "boom" :: List.map get_series [⟨none, none⟩]) :=
  inline_error_policy.2 [] [⟨none, none⟩] "boom" none (by simp)

/-- Auxiliary: hosts that fail with a connection error are skipped, the loop
resuming at the next index. -/
theorem request_aux_skip (outcome : String → HostOutcome) (all : List String)
    (pre : List String) (hpre : ∀ p ∈ pre, outcome p = .connError) :
    ∀ i rest, request_aux outcome all i (pre ++ rest)
      = request_aux outcome all (i + pre.length) rest := by
  induction pre with
  | nil => intro i rest; simp
  | cons a as ih =>
    intro i rest
    have ha : outcome a = .connError := hpre a (by simp)
    rw [List.cons_append]
    show request_aux outcome all i (a :: (as ++ rest)) = _
    rw [request_aux, ha]
    have := ih (fun p hp => hpre p (by simp [hp])) (i + 1) rest
    rw [this]
    simp [Nat.add_assoc, Nat.add_comm 1 as.length]

/-- Auxiliary: indexing an append at the length of its left part. -/
theorem getq_append_len (pre : List String) (x : String) (post : List String) :
    (pre ++ x :: post).get? pre.length = some x := by
  induction pre with
  | nil => rfl
  | cons a as ih => simpa using ih

/-- Auxiliary: erasing an append at the length of its left part. -/
theorem eraseIdx_append_len (pre : List String) (x : String) (post : List String) :
    (pre ++ x :: post).eraseIdx pre.length = pre ++ post := by
  induction pre with
  | nil => rfl
  | cons a as ih => simpa [List.eraseIdx] using ih

/-- Auxiliary: promoting the element sitting after `pre` moves it to the
front and keeps the rest in their relative order. -/
theorem promote_append_len (pre : List String) (x : String) (post : List String) :
    promote (pre ++ x :: post) pre.length = x :: (pre ++ post) := by
  rw [promote, getq_append_len, eraseIdx_append_len]

/-- C3: with more than one configured host, the first host that returns a
response is moved to the front of the host list with the remaining hosts in
their original relative order; in particular hosts `[A, B]` with A
unreachable and B responding end up ordered `[B, A]`. -/
theorem host_promotion :
    (∀ (outcome : String → HostOutcome) (pre : List String) (h : String)
        (post : List String) (r : Nat),
      (∀ p ∈ pre, outcome p = .connError) → outcome h = .response r →
      1 < (pre ++ h :: post).length →
      request outcome (pre ++ h :: post) = .ok r (h :: (pre ++ post)))
  ∧ request (fun h => if h = "A" then .connError else .response 200) ["A", "B"]
      = .ok 200 ["B", "A"] := by
  constructor
  · intro outcome pre h post r hpre hresp hlen
    rw [request, request_aux_skip outcome _ pre hpre 0 (h :: post)]
    rw [request_aux, hresp]
    simp only [Nat.zero_add]
    rw [if_pos hlen, promote_append_len]
  · decide

/-- Witness for C3 on the concrete two-host list. -/
theorem host_promotion_witness :
    request (fun h => if h = "A" then .connError else .response 200) (["A"] ++ "B" :: [])
      = .ok 200 ("B" :: (["A"] ++ [])) :=
  host_promotion.1 (fun h => if h = "A" then .connError else .response 200)
    ["A"] "B" [] 200 (by decide) (by decide) (by decide)

/-- Auxiliary: the loop exhausts into the no-reachable-host failure exactly
when every remaining host fails with a connection error. -/
theorem request_aux_noReach_iff (outcome : String → HostOutcome) (all : List String) :
    ∀ i rest, request_aux outcome all i rest = .noReachableHost ↔
      ∀ h ∈ rest, outcome h = .connError := by
  intro i rest
  induction rest generalizing i with
  | nil => simp [request_aux]
  | cons h t ih =>
    rw [request_aux]
    cases hh : outcome h with
    | connError => simp [ih (i + 1), hh]
    | otherError => simp [hh]
    | response r => simp [hh]

/-- C4: connection failures are skipped in favour of the next host, any other
failure aborts the call as a fatal error for the host it hit (regardless of
the hosts still remaining), and the call ends in the no-reachable-host
failure exactly when every configured host fails with a connection error. -/
theorem error_handling :
    (∀ (outcome : String → HostOutcome) (pre : List String) (h : String)
        (post : List String),
      (∀ p ∈ pre, outcome p = .connError) → outcome h = .otherError →
      request outcome (pre ++ h :: post) = .fatalError h)
  ∧ (∀ (outcome : String → HostOutcome) (hosts : List String),
      request outcome hosts = .noReachableHost ↔ ∀ h ∈ hosts, outcome h = .connError) := by
  constructor
  · intro outcome pre h post hpre hfatal
    rw [request, request_aux_skip outcome _ pre hpre 0 (h :: post), request_aux, hfatal]
  · intro outcome hosts
    exact request_aux_noReach_iff outcome hosts 0 hosts

/-- Witness for C4: a fatal failure on the second host after a connection
failure on the first. -/
theorem error_handling_witness :
    request (fun h => if h = "A" then .connError else .otherError) (["A"] ++ "B" :: [])
      = .fatalError "B" :=
  error_handling.1 (fun h => if h = "A" then .connError else .otherError)
    ["A"] "B" [] (by decide) (by decide)

/-- Auxiliary: putting an indexed element back in front of its erasure is a
permutation. -/
theorem cons_eraseIdx_perm : ∀ (l : List String) (i : Nat) (x : String),
    l.get? i = some x → List.Perm (x :: l.eraseIdx i) l := by
  intro l
  induction l with
  | nil => intro i x h; simp at h
  | cons a t ih =>
    intro i x h
    cases i with
    | zero =>
      simp at h
      subst h
      simp [List.eraseIdx]
    | succ n =>
      have h2 : t.get? n = some x := h
      have hp := ih n x h2
      have hshape : (x :: (a :: t).eraseIdx (n + 1)) = x :: a :: t.eraseIdx n := rfl
      rw [hshape]
      exact (List.Perm.swap a x _).trans (hp.cons a)

/-- Auxiliary: promotion permutes the host list. -/
theorem promote_perm (l : List String) (i : Nat) : List.Perm (promote l i) l := by
  rw [promote]
  cases h : l.get? i with
  | none => exact List.Perm.refl l
  | some x => exact cons_eraseIdx_perm l i x h

/-- Auxiliary: a successful dispatch only ever hands back a permutation of
the host list it started from. -/
theorem request_aux_ok_perm (outcome : String → HostOutcome) (all : List String) :
    ∀ i rest r l, request_aux outcome all i rest = .ok r l → List.Perm l all := by
  intro i rest
  induction rest generalizing i with
  | nil => intro r l h; simp [request_aux] at h
  | cons host t ih =>
    intro r l h
    rw [request_aux] at h
    cases hh : outcome host with
    | connError => rw [hh] at h; exact ih (i + 1) r l h
    | otherError => rw [hh] at h; cases h
    | response resp =>
      rw [hh] at h
      cases h
      split
      · exact promote_perm all i
      · exact List.Perm.refl all

/-- C10: one `_request` call, and likewise any sequence of calls, leaves the
client's host list a permutation of the list it started with — same multiset
of hosts, same length, never empty if it started non-empty. -/
theorem host_list_permutation :
    (∀ (outcome : String → HostOutcome) (hosts : List String),
      List.Perm (hostsAfter outcome hosts) hosts)
  ∧ (∀ (outcomes : List (String → HostOutcome)) (hosts : List String),
      List.Perm (hostsAfterSeq outcomes hosts) hosts)
  ∧ (∀ (outcomes : List (String → HostOutcome)) (hosts : List String),
      (hostsAfterSeq outcomes hosts).length = hosts.length) := by
  have single : ∀ (outcome : String → HostOutcome) (hosts : List String),
      List.Perm (hostsAfter outcome hosts) hosts := by
    intro outcome hosts
    rw [hostsAfter]
    cases h : request outcome hosts with
    | ok r l => exact request_aux_ok_perm outcome hosts 0 hosts r l h
    | fatalError host => exact List.Perm.refl hosts
    | noReachableHost => exact List.Perm.refl hosts
  have seq : ∀ (outcomes : List (String → HostOutcome)) (hosts : List String),
      List.Perm (hostsAfterSeq outcomes hosts) hosts := by
    intro outcomes
    induction outcomes with
    | nil => intro hosts; exact List.Perm.refl hosts
    | cons o os ih =>
      intro hosts
      exact (ih (hostsAfter o hosts)).trans (single o hosts)
  exact ⟨single, seq, fun outcomes hosts => (seq outcomes hosts).length_eq⟩

/-- Auxiliary: a string with a non-empty left part is non-empty. -/
theorem append_ne_empty_left (a b : String) (h : a ≠ "") : a ++ b ≠ "" := by
  intro hab
  have hd := (String.data_append a b).symm
  rw [hab] at hd
  have h2 : a.data = [] ∧ b.data = [] := List.append_eq_nil.mp (by simpa using hd)
  exact h (by cases a with | mk d => simp_all)

/-- Auxiliary: a string with a non-empty right part is non-empty. -/
theorem append_ne_empty_right (a b : String) (h : b ≠ "") : a ++ b ≠ "" := by
  intro hab
  have hd := (String.data_append a b).symm
  rw [hab] at hd
  have h2 : a.data = [] ∧ b.data = [] := List.append_eq_nil.mp (by simpa using hd)
  exact h (by cases b with | mk d => simp_all)

/-- C7: WHERE composition is associative and order-preserving — two chained
single-expression calls build the same query as one two-expression call, the
rendered text agrees, and from an empty WHERE clause the result is the two
expressions joined by `AND`. -/
theorem where_composition (q : SelectQuery) (e1 e2 : String) (h1 : e1 ≠ "") (h2 : e2 ≠ "") :
    (q.whereAdd [e1]).whereAdd [e2] = q.whereAdd [e1, e2]
    ∧ ((q.whereAdd [e1]).whereAdd [e2]).render = (q.whereAdd [e1, e2]).render
    ∧ (q.where_ = "" → (q.whereAdd [e1, e2]).where_ = e1 ++ " AND " ++ e2) := by
  have heq : (q.whereAdd [e1]).whereAdd [e2] = q.whereAdd [e1, e2] := by
    by_cases hw : q.where_ = ""
    · simp [SelectQuery.whereAdd, pyJoin, hw, h1, h2, append_ne_empty_right e1 e2 h2,
        String.append_assoc]
    · have hne1 : q.where_ ++ (" AND " ++ e1) ≠ "" := append_ne_empty_left _ _ hw
      have hne2 : e1 ++ (" AND " ++ e2) ≠ "" := append_ne_empty_left _ _ h1
      simp [SelectQuery.whereAdd, pyJoin, hw, h1, h2, hne1, hne2, String.append_assoc]
  refine ⟨heq, by rw [heq], ?_⟩
  intro hw
  simp [SelectQuery.whereAdd, pyJoin, hw, h1, h2, append_ne_empty_right e1 e2 h2]

/-- Witness for C7 on the spec's `x>1` / `y<2` example. -/
theorem where_composition_witness :
    ((SelectQuery.mk "k" "f" "" "" "" "").whereAdd ["x>1"]).whereAdd ["y<2"]
      = (SelectQuery.mk "k" "f" "" "" "" "").whereAdd ["x>1", "y<2"] :=
  (where_composition (SelectQuery.mk "k" "f" "" "" "" "") "x>1" "y<2"
    (by decide) (by decide)).1

/-- C8: rendering the test-suite's example query through the source's
`SelectQuery` leaves the FROM measurement text exactly as it was stored —
unquoted — so the render differs from the quoted string the repository's own
test (`tests/test_query.py::TestQuery::test_str`) expects. -/
theorem from_clause_unquoted :
    c8Builder.render
      = "SELECT key1,key2 INTO \"m3\" FROM m1,m2 WHERE m1 > 6.54 GROUP BY m1,m2 ORDER BY m2 DESC,m1 ASC"
  ∧ c8Builder.render
      ≠ "SELECT key1,key2 INTO \"m3\" FROM \"m1\",\"m2\" WHERE m1 > 6.54 GROUP BY m1,m2 ORDER BY m2 DESC,m1 ASC" := by
  exact ⟨by decide, by decide⟩

/-- Counterexample for C9: on a series with a `time` column, the first full
iteration succeeds (and replaces the raw time string in the shared row
storage with the parsed value), so the second full iteration re-parses a
non-string and fails — iteration is not restartable as claimed. -/
theorem series_reiteration_fails :
    seriesIterOnce c9Series = .ok [[.time "2016-12-03T19:26:51Z", .num "4.32"]]
  ∧ seriesIterTwice c9Series = .error "Parser must be a string or character stream" :=
  ⟨rfl, rfl⟩

/-- Auxiliary: when every row constructs, iteration yields exactly one typed
row per raw row, in order. -/
theorem exceptMapRows_ok_forall (f : List JSONVal → Except String (List JSONVal)) :
    ∀ l, (∀ x ∈ l, ∃ y, f x = .ok y) →
      ∃ ys, exceptMapRows f l = .ok ys
        ∧ List.Forall₂ (fun x y => f x = .ok y) l ys := by
  intro l
  induction l with
  | nil => intro _; exact ⟨[], rfl, List.Forall₂.nil⟩
  | cons x xs ih =>
    intro h
    obtain ⟨y, hy⟩ := h x (by simp)
    obtain ⟨ys, hys, hall⟩ := ih (fun x hx => h x (by simp [hx]))
    exact ⟨y :: ys, by rw [exceptMapRows, hy, hys], List.Forall₂.cons hy hall⟩

/-- Auxiliary: row construction that touches nothing reproduces the rows. -/
theorem exceptMapRows_id (f : List JSONVal → Except String (List JSONVal)) :
    ∀ l, (∀ x ∈ l, f x = .ok x) → exceptMapRows f l = .ok l := by
  intro l
  induction l with
  | nil => intro _; rfl
  | cons x xs ih =>
    intro h
    rw [exceptMapRows, h x (by simp), ih (fun x hx => h x (by simp [hx]))]

/-- C9 as amended: iterating a series yields one typed row per raw row in
order, a `time` column's raw string is parsed into an absolute-time value
while every other cell passes through untouched, and iteration is restartable
— a second full iteration succeeding with equal rows — when the series has no
`time` column (with a `time` column the first pass replaces the shared raw
cell, and re-parsing the parsed value fails). -/
theorem series_iteration_typed_rows :
    (∀ (cols : List String) (row : List JSONVal) (i : Nat) (s : String),
        timeIndex cols = some i → row.get? i = some (.str s) →
        keyedTupleInit cols row = .ok (row.set i (.time s)))
  ∧ (∀ (cols : List String) (row : List JSONVal) (i : Nat) (s : String) (j : Nat),
        timeIndex cols = some i → row.get? i = some (.str s) → j ≠ i →
        ∃ r, keyedTupleInit cols row = .ok r ∧ r.get? j = row.get? j)
  ∧ (∀ (cols : List String) (row : List JSONVal), timeIndex cols = none →
        keyedTupleInit cols row = .ok row)
  ∧ (∀ s : Series, (∀ row ∈ s.values, ∃ y, keyedTupleInit s.columns row = .ok y) →
        ∃ rows, seriesIterOnce s = .ok rows
          ∧ List.Forall₂ (fun r y => keyedTupleInit s.columns r = .ok y) s.values rows)
  ∧ (∀ s : Series, timeIndex s.columns = none →
        seriesIterOnce s = .ok s.values ∧ seriesIterTwice s = .ok s.values) := by
  have hset : ∀ (cols : List String) (row : List JSONVal) (i : Nat) (s : String),
      timeIndex cols = some i → row.get? i = some (.str s) →
      keyedTupleInit cols row = .ok (row.set i (.time s)) := by
    intro cols row i s hti hrow
    rw [List.get?_eq_getElem?] at hrow
    simp [keyedTupleInit, hti, hrow, dateutil_parse, Except.map]
  have hid : ∀ (cols : List String) (row : List JSONVal), timeIndex cols = none →
      keyedTupleInit cols row = .ok row := by
    intro cols row hti
    simp [keyedTupleInit, hti]
  refine ⟨hset, ?_, hid, ?_, ?_⟩
  · intro cols row i s j hti hrow hji
    exact ⟨row.set i (.time s), hset cols row i s hti hrow,
      List.get?_set_ne _ _ (Ne.symm hji)⟩
  · intro s h
    exact exceptMapRows_ok_forall (keyedTupleInit s.columns) s.values h
  · intro s hti
    have h1 : seriesIterOnce s = .ok s.values :=
      exceptMapRows_id _ s.values (fun row _ => hid s.columns row hti)
    refine ⟨h1, ?_⟩
    rw [seriesIterTwice, h1]
    exact h1

/-- Witness for C9 on a concrete series without a `time` column. -/
theorem series_iteration_typed_rows_witness :
    seriesIterOnce (Series.mk "d" ["col1"] [[.num "1"]]) = .ok [[.num "1"]]
  ∧ seriesIterTwice (Series.mk "d" ["col1"] [[.num "1"]]) = .ok [[.num "1"]] :=
  series_iteration_typed_rows.2.2.2.2 (Series.mk "d" ["col1"] [[.num "1"]]) rfl

end AsphaltInfluxDB
